import Mathlib

/-!
Shallow embedding of the apns-send client (src/src/apns/apns.ts) and its
HTTP/2 connection wrapper (the unnamed http2-wrapper source file).

Conventions of the embedding:
* JS machine integers and timestamps are `Nat`/`Int`; `Date.now()` is passed
  explicitly as a `now : Nat` parameter (milliseconds).
* The mutable `ApnsClient` object state is threaded explicitly as `ApnsState`.
* External library functions (jsonwebtoken `sign`, `JSON.parse`,
  `Buffer.toString`, the wire itself) are abstract function parameters; the
  Node `path.join` routine, whose output is part of the client's observable
  wire contract, is embedded concretely below.
* Fallible code returns `Except String`; a thrown JS `Error` is the
  `Except.error` carrying its message.
-/

/-! ## Constants (apns.ts lines 8-15) -/

def API_VERSION : Nat := 3

def SIGNING_ALGORITHM : String := "ES256"

def RESET_TOKEN_INTERVAL_MS : Nat := 55 * 60 * 1000

/-! ## Data model -/

/-- `SigningToken` interface: cached token value plus its creation timestamp. -/
structure SigningToken where
  value : String
  timestamp : Nat
deriving DecidableEq, Repr

/-- The claim set signed by `_getSigningToken`: `{iss, iat}`. -/
structure Claims where
  iss : String
  iat : Nat
deriving DecidableEq, Repr

/-- The `header` option passed to jsonwebtoken `sign`: `{alg, kid}`. -/
structure SignHeader where
  alg : String
  kid : String
deriving DecidableEq, Repr

/-- The mutable/configured state of an `ApnsClient` instance.  `_token` is the
cached signing token (`null` encoded as `none`). -/
structure ApnsState where
  team : String
  keyId : String
  signingKey : String
  defaultTopic : Option String
  _token : Option SigningToken
deriving DecidableEq, Repr

/-- The expiration option of a notification: a JS `number` (epoch seconds) or
a `Date` (epoch milliseconds). -/
inductive Expiration where
  | num (n : Int)
  | date (ms : Int)
deriving DecidableEq, Repr

structure NotificationOptions where
  topic : Option String
  expiration : Option Expiration
  collapseId : Option String
deriving DecidableEq, Repr

/-- The external `Notification` entity, as consumed by the client.  `payload`
stands for the already-serialized result of
`JSON.stringify(notification.buildApnsOptions())`. -/
structure Notification where
  deviceToken : String
  pushType : String
  priority : Option Int
  options : Option NotificationOptions
  payload : String
deriving DecidableEq, Repr

/-- A JS record of headers: association list from header name to value, where
an explicitly-present-but-`undefined` value is `none`. -/
abbrev Headers := List (String × Option String)

/-- Key membership in a header record. -/
def hasKey (hs : Headers) (k : String) : Bool :=
  hs.any (fun p => p.1 == k)

/-- Property read `headers[k]`: `none` if the key is absent, `some v` (with
`v` possibly `none`, i.e. JS `undefined`) if present. -/
def lookupH (hs : Headers) (k : String) : Option (Option String) :=
  (hs.find? (fun p => p.1 == k)).map (fun p => p.2)

/-! ## Node `path.join` (posix), used by `_getPath`

`path.join` concatenates the non-empty segments with `/` and then normalizes
the result (resolving `.` and `..` components, collapsing repeated
separators, preserving a trailing separator).  All call sites in apns.ts
produce an absolute joined path (the first segment starts with `/`). -/

/-- Split a character list on `/` (separator-delimited components; a leading,
trailing or doubled separator yields empty components). -/
def splitSlash : List Char → List (List Char)
  | [] => [[]]
  | c :: cs =>
    if c = '/' then [] :: splitSlash cs
    else
      match splitSlash cs with
      | [] => [[c]]
      | s :: ss => (c :: s) :: ss

/-- The component-resolution loop of Node's `normalizeString`: drops empty
and `.` components; `..` pops the last kept component when possible,
otherwise it is kept only for relative paths (`allow = true`). -/
def normSegs (allow : Bool) : List (List Char) → List (List Char) → List (List Char)
  | acc, [] => acc.reverse
  | acc, s :: rest =>
    if s = [] ∨ s = ['.'] then normSegs allow acc rest
    else if s = ['.', '.'] then
      match acc with
      | [] => if allow then normSegs allow [['.', '.']] rest else normSegs allow [] rest
      | top :: acc2 =>
        if top = ['.', '.'] then
          if allow then normSegs allow (s :: top :: acc2) rest else normSegs allow (top :: acc2) rest
        else normSegs allow acc2 rest
    else normSegs allow (s :: acc) rest

/-- Rejoin resolved components with `/`. -/
def joinSegs : List (List Char) → List Char
  | [] => []
  | [s] => s
  | s :: rest => s ++ '/' :: joinSegs rest

/-- Node `path.posix.normalize` on a non-empty path. -/
def posixNormalize (p : List Char) : List Char :=
  if p = [] then ['.']
  else
    let isAbs : Bool := p.head? == some '/'
    let trailing : Bool := p.getLast? == some '/'
    let core := joinSegs (normSegs (!isAbs) [] (splitSlash p))
    let core2 := if core.isEmpty && !isAbs then ['.'] else core
    let core3 := if !core2.isEmpty && trailing then core2 ++ ['/'] else core2
    if isAbs then '/' :: core3 else core3

/-- The argument-joining loop of Node `path.posix.join`. -/
def joinGo (acc : String) : List String → String
  | [] => acc
  | a :: rest => joinGo (acc ++ "/" ++ a) rest

/-- Node `path.posix.join`: skip empty arguments, join with `/`, normalize;
with no non-empty argument the result is `"."`. -/
def posixJoin (parts : List String) : String :=
  match parts.filter (fun s => s != "") with
  | [] => "."
  | a :: rest => String.mk (posixNormalize (joinGo a rest).data)

/-! ## Push client (apns.ts) -/

/-- `_getPath` (apns.ts 133-138): an empty device token (the only falsy
string) throws; otherwise the path is joined from the API version segment,
the `device` segment and the token. -/
def _getPath (deviceToken : String) : Except String String :=
  if deviceToken = "" then Except.error "Device token is required"
  else Except.ok (posixJoin ["/" ++ toString API_VERSION, "device", deviceToken])

/-- The fresh-signing tail of `_getSigningToken` (apns.ts 152-170): build the
claims, sign them, cache the result with the current timestamp. -/
def _signFresh (sign : Claims → String → String → SignHeader → String)
    (c : ApnsState) (now : Nat) : String × ApnsState :=
  let claims : Claims := { iss := c.team, iat := now / 1000 }
  let token := sign claims c.signingKey SIGNING_ALGORITHM
    { alg := SIGNING_ALGORITHM, kid := c.keyId }
  (token, { c with _token := some { value := token, timestamp := now } })

/-- `_getSigningToken` (apns.ts 144-171): return the cached token while it is
younger than the rotation interval, otherwise sign afresh. -/
def _getSigningToken (sign : Claims → String → String → SignHeader → String)
    (c : ApnsState) (now : Nat) : String × ApnsState :=
  match c._token with
  | some t =>
    if now - t.timestamp < RESET_TOKEN_INTERVAL_MS then (t.value, c)
    else _signFresh sign c now
  | none => _signFresh sign c now

/-- `_resetSigningToken` (apns.ts 185-187). -/
def _resetSigningToken (c : ApnsState) : ApnsState :=
  { c with _token := none }

/-- JS truthiness of an expiration option value: the number `0` is falsy, a
`Date` object is always truthy. -/
def expTruthy : Expiration → Bool
  | .num k => k != 0
  | .date _ => true

/-- The `apns-expiration` header value (apns.ts 115-118): a number is
rendered with `toFixed(0)`; a `Date` is converted to epoch seconds with
`(getTime() / 1000).toFixed(0)` (rounding to the nearest integer, ties
towards the larger value). -/
def expHeaderValue : Expiration → String
  | .num k => toString k
  | .date ms => toString (Int.fdiv (2 * ms + 1000) 2000)

/-- Whether the expiration option is set to a truthy value. -/
def expirationTruthy (n : Notification) : Bool :=
  match n.options.bind (fun o => o.expiration) with
  | some e => expTruthy e
  | none => false

/-- Whether the collapseId option is set to a truthy (non-empty) string. -/
def collapseIdTruthy (n : Notification) : Bool :=
  match n.options.bind (fun o => o.collapseId) with
  | some s => s != ""
  | none => false

/-- `_buildHeaders` (apns.ts 103-126).  The object literal first evaluates
the authorization value (running `_getSigningToken`, which may update the
cached token) and then the `:path` value (running `_getPath`, which throws on
an empty device token); the two conditional headers are appended only when
their option value is truthy. -/
def _buildHeaders (sign : Claims → String → String → SignHeader → String)
    (c : ApnsState) (now : Nat) (n : Notification) :
    Except String Headers × ApnsState :=
  let auth := _getSigningToken sign c now
  match _getPath n.deviceToken with
  | .error e => (.error e, auth.2)
  | .ok p =>
    let base : Headers :=
      [("authorization", some ("bearer " ++ auth.1)),
       ("apns-push-type", some n.pushType),
       ("apns-priority", some ((n.priority.map (fun pr => toString pr)).getD "0")),
       ("apns-topic", Option.or (n.options.bind (fun o => o.topic)) c.defaultTopic),
       (":method", some "POST"),
       (":scheme", some "https"),
       (":path", some p)]
    let withExp : Headers :=
      match n.options.bind (fun o => o.expiration) with
      | some e =>
        if expTruthy e then base ++ [("apns-expiration", some (expHeaderValue e))]
        else base
      | none => base
    let withCid : Headers :=
      match n.options.bind (fun o => o.collapseId) with
      | some s => if s == "" then withExp else withExp ++ [("apns-collapse-id", some s)]
      | none => withExp
    (.ok withCid, auth.2)

/-- The request issued to the connection wrapper by `_push`. -/
structure RequestCall where
  path : String
  headers : Headers
  body : String
  method : String
deriving DecidableEq, Repr

/-- `_push` (apns.ts 90-96), with the wrapper `request` abstracted by `net`.
Argument evaluation order: `_getPath` runs first (its throw aborts the call
before any state change and before any request is issued), then
`_buildHeaders`, then the request itself.  The third component records the
requests actually handed to the connection wrapper. -/
def _push {ρ : Type} (sign : Claims → String → String → SignHeader → String)
    (net : RequestCall → Except String ρ)
    (c : ApnsState) (now : Nat) (n : Notification) :
    Except String ρ × ApnsState × List RequestCall :=
  match _getPath n.deviceToken with
  | .error e => (.error e, c, [])
  | .ok p =>
    match _buildHeaders sign c now n with
    | (.error e, c1) => (.error e, c1, [])
    | (.ok hs, c1) =>
      let rc : RequestCall := { path := p, headers := hs, body := n.payload, method := "POST" }
      (net rc, c1, [rc])

/-- `send` (apns.ts 72-74) simply delegates to `_push`. -/
def send {ρ : Type} (sign : Claims → String → String → SignHeader → String)
    (net : RequestCall → Except String ρ)
    (c : ApnsState) (now : Nat) (n : Notification) :
    Except String ρ × ApnsState × List RequestCall :=
  _push sign net c now n

/-- One element of the `sendMany` result: the per-notification outcome, a
successful response or an `{error}` object capturing the failure. -/
inductive PushOutcome (ρ : Type) where
  | ok (r : ρ)
  | err (error : String)
deriving DecidableEq, Repr

/-- `this._push(notification).catch((error) => ({error}))`. -/
def _pushCaught {ρ : Type} (sign : Claims → String → String → SignHeader → String)
    (net : RequestCall → Except String ρ)
    (c : ApnsState) (now : Nat) (n : Notification) :
    PushOutcome ρ × ApnsState × List RequestCall :=
  match _push sign net c now n with
  | (.ok r, c1, calls) => (.ok r, c1, calls)
  | (.error e, c1, calls) => (.err e, c1, calls)

/-- `sendMany` (apns.ts 76-83): the `map` synchronously starts one push per
notification in input order (threading the client state used by header
building) and `Promise.all` returns the outcomes in the same order. -/
def sendMany {ρ : Type} (sign : Claims → String → String → SignHeader → String)
    (net : RequestCall → Except String ρ)
    (c : ApnsState) (now : Nat) :
    List Notification → List (PushOutcome ρ) × ApnsState × List RequestCall
  | [] => ([], c, [])
  | n :: ns =>
    let step := _pushCaught sign net c now n
    let rest := sendMany sign net step.2.1 now ns
    (step.1 :: rest.1, rest.2.1, step.2.2 ++ rest.2.2)

/-- The client state after the pushes of a list of notifications have been
started. -/
def sendState {ρ : Type} (sign : Claims → String → String → SignHeader → String)
    (net : RequestCall → Except String ρ)
    (c : ApnsState) (now : Nat) : List Notification → ApnsState
  | [] => c
  | n :: ns => sendState sign net (_pushCaught sign net c now n).2.1 now ns

/-! ## Connection wrapper (http2-wrapper source) -/

/-- `IRequestOptions`. -/
structure IRequestOptions where
  headers : Option Headers
  body : Option String
  method : String
  timeout : Option Nat
deriving DecidableEq, Repr

/-- Assignment of one key in a JS object: an existing key keeps its position
and gets the new value, a new key is appended. -/
def setKey (hs : Headers) (k : String) (v : Option String) : Headers :=
  if hs.any (fun p => p.1 == k) then
    hs.map (fun p => if p.1 == k then (k, v) else p)
  else hs ++ [(k, v)]

/-- The header object written to the request stream by `request` (wrapper
lines 23-30): the object literal spreads the caller-supplied headers first
and then assigns the `:method` and `:path` pseudo-headers, so the later
assignments win. -/
def requestHeaders (options : IRequestOptions) (path : String) : Headers :=
  setKey (setKey (options.headers.getD []) ":method" (some options.method))
    ":path" (some path)

/-- What happens to the request stream, as seen by the header wait: the peer
never answers, or response headers arrive at time `t`, or a stream error is
emitted at time `t` (times in ms from the start of the wait). -/
inductive StreamFate where
  | silent
  | respondsAt (t : Nat) (headers : Headers)
  | errsAt (t : Nat) (e : String)
deriving DecidableEq, Repr

/-- How the header-wait promise of `_responseHeaders` settles. -/
inductive HeaderSettle where
  | resolvedH (headers : Headers) (status : Nat)
  | rejectedE (e : String)
  | timedOut
  | pending
deriving DecidableEq, Repr

/-- `_responseHeaders` (wrapper lines 54-72).  `numOf` abstracts
`Number(headers[HTTP2_HEADER_STATUS])`.  The guard `if (timeout)` arms the
inactivity timer only for a present, non-zero timeout (JS truthiness); a
fired timer calls `reject` (with no reason value, modelled as `timedOut`).
The first settled outcome wins: a response or error arriving strictly before
the window elapses resolves or rejects the wait, otherwise the armed timer
rejects it; with no event and no armed timer the promise stays pending. -/
def _responseHeadersOutcome (numOf : Headers → Nat)
    (timeout : Option Nat) (fate : StreamFate) : HeaderSettle :=
  let armed : Bool := match timeout with | some t => t != 0 | none => false
  let window : Nat := match timeout with | some t => t | none => 0
  match fate with
  | .silent => if armed then .timedOut else .pending
  | .respondsAt ta h =>
    if armed && decide (window ≤ ta) then .timedOut else .resolvedH h (numOf h)
  | .errsAt ta e =>
    if armed && decide (window ≤ ta) then .timedOut else .rejectedE e

/-- `_convertBufferToJson` (wrapper lines 91-96).  `decode` abstracts
`buffer.toString('utf8')`, `parse` abstracts `JSON.parse` (a throw is
`Except.error`).  The guard `if (buffer && typeof buffer)` always holds for
the `Buffer` produced by `Buffer.concat`.  Empty text yields `undefined`
(`none`), otherwise the text is parsed. -/
def _convertBufferToJson (J : Type) (decode : List Nat → String)
    (parse : String → Except String J) (buffer : List Nat) :
    Except String (Option J) :=
  let text := decode buffer
  if text = "" then .ok none else (parse text).map (fun v => some v)

/-- What happens on the stream during the body wait. -/
inductive BodyFate where
  | endsWith (chunks : List (List Nat))
  | errsWith (e : String)
deriving DecidableEq, Repr

/-- How the body promise of `_responseJson` settles.  `uncaughtThrow` is a
throw escaping the `end` event listener: `resolve` is never invoked, the
promise never settles, and the exception propagates as an uncaught
exception. -/
inductive BodySettle (J : Type) where
  | resolved (v : Option J)
  | rejected (e : String)
  | uncaughtThrow (e : String)
deriving DecidableEq, Repr

/-- `_responseJson` (wrapper lines 74-89): chunks are buffered in arrival
order; on `end` the stream is destroyed, all listeners are removed, and
`resolve(this._convertBufferToJson(Buffer.concat(chunks)))` runs — the
argument is evaluated before `resolve` is invoked, so a `JSON.parse` throw
escapes the listener instead of settling the promise.  A stream `error`
before `end` rejects the promise. -/
def _responseJsonOutcome (J : Type) (decode : List Nat → String)
    (parse : String → Except String J) (fate : BodyFate) : BodySettle J :=
  match fate with
  | .errsWith e => .rejected e
  | .endsWith chunks =>
    match _convertBufferToJson J decode parse chunks.flatten with
    | .ok v => .resolved v
    | .error e => .uncaughtThrow e


/-! ## Concrete fixtures used by witnesses and counterexamples -/

/-- A concrete stand-in signing function. -/
def sign0 : Claims → String → String → SignHeader → String :=
  fun cl _ _ h => "signed." ++ cl.iss ++ "." ++ toString cl.iat ++ "." ++ h.kid

def c0 : ApnsState :=
  { team := "TEAM1", keyId := "KEY1", signingKey := "PEMKEY",
    defaultTopic := some "com.example.app", _token := none }

def c1cached : ApnsState :=
  { c0 with _token := some { value := "CACHEDTOK", timestamp := 1000 } }

/-- A concrete stand-in network that answers every request with 200. -/
def net0 : RequestCall → Except String Nat := fun _ => Except.ok 200

def nEmpty : Notification :=
  { deviceToken := "", pushType := "alert", priority := none, options := none,
    payload := "p" }

def nOk : Notification :=
  { deviceToken := "abc", pushType := "alert", priority := some 10,
    options := none, payload := "p" }

/-- The staleness condition under which `_getSigningToken` re-signs: no
cached token, or the cached token has reached the rotation interval. -/
def cacheStale (c : ApnsState) (now : Nat) : Prop :=
  match c._token with
  | some t => RESET_TOKEN_INTERVAL_MS ≤ now - t.timestamp
  | none => True

/-- A concrete stand-in for `buffer.toString('utf8')` on ASCII bytes. -/
def decode0 : List Nat → String := fun bs => String.mk (bs.map (fun b => Char.ofNat b))

/-- A concrete stand-in for a `JSON.parse` call that throws. -/
def parse0 : String → Except String String :=
  fun _ => Except.error "SyntaxError: Unexpected token"

def opts0 : IRequestOptions :=
  { headers := some [(":method", some "PUT")], body := none, method := "POST",
    timeout := none }

def opts1 : IRequestOptions :=
  { headers := some [("apns-topic", some "com.example.app")], body := none,
    method := "POST", timeout := none }

/-- A notification whose expiration option is explicitly set to the number
0 (a set, but falsy, value). -/
def nExpZero : Notification :=
  { deviceToken := "abc", pushType := "alert", priority := none,
    options := some { topic := none, expiration := some (.num 0), collapseId := none },
    payload := "p" }

/-- A notification with truthy expiration and collapseId options. -/
def nFull : Notification :=
  { deviceToken := "abc", pushType := "background", priority := some 5,
    options := some { topic := some "com.example.other",
                      expiration := some (.num 1700000000),
                      collapseId := some "cid" },
    payload := "p" }

/-! ## Theorems -/

/-- Claim C1: for a notification with an empty device token, `_push` fails
with the validation error, issues no request to the connection wrapper, and
leaves the client state (including the cached signing token) unchanged. -/
theorem push_empty_token_validation {ρ : Type}
    (sign : Claims → String → String → SignHeader → String)
    (net : RequestCall → Except String ρ) (c : ApnsState) (now : Nat)
    (n : Notification) (h : n.deviceToken = "") :
    _push sign net c now n =
      (Except.error "Device token is required", c, ([] : List RequestCall)) := by
  simp [_push, _getPath, h]

theorem push_empty_token_validation_app :
    _push sign0 net0 c0 5 nEmpty =
      (Except.error "Device token is required", c0, ([] : List RequestCall)) :=
  push_empty_token_validation sign0 net0 c0 5 nEmpty rfl

/-- Claim C2: a cached token younger than the rotation interval is returned
unchanged; two calls while the cached token is within the interval return
byte-identical values (also when the first call itself signed the token);
otherwise a fresh token over `{iss, iat := now / 1000}` is signed and cached
with the current timestamp. -/
theorem getSigningToken_cache_spec
    (sign : Claims → String → String → SignHeader → String) (c : ApnsState) :
    (∀ t now, c._token = some t → now - t.timestamp < RESET_TOKEN_INTERVAL_MS →
      _getSigningToken sign c now = (t.value, c)) ∧
    (∀ t now1 now2, c._token = some t →
      now1 - t.timestamp < RESET_TOKEN_INTERVAL_MS →
      now2 - t.timestamp < RESET_TOKEN_INTERVAL_MS →
      (_getSigningToken sign (_getSigningToken sign c now1).2 now2).1 =
        (_getSigningToken sign c now1).1) ∧
    (∀ now1 now2, cacheStale c now1 → now2 - now1 < RESET_TOKEN_INTERVAL_MS →
      (_getSigningToken sign (_getSigningToken sign c now1).2 now2).1 =
        (_getSigningToken sign c now1).1) ∧
    (∀ now, cacheStale c now → _getSigningToken sign c now = _signFresh sign c now) := by
  have fresh : ∀ now, cacheStale c now →
      _getSigningToken sign c now = _signFresh sign c now := by
    intro now hst
    match hc : c._token with
    | none => simp [_getSigningToken, hc]
    | some t =>
      have : ¬ (now - t.timestamp < RESET_TOKEN_INTERVAL_MS) := by
        simp only [cacheStale, hc] at hst; omega
      simp [_getSigningToken, hc, this]
  refine ⟨?_, ?_, ?_, fresh⟩
  · intro t now ht hlt
    simp [_getSigningToken, ht, hlt]
  · intro t now1 now2 ht h1 h2
    have e1 : _getSigningToken sign c now1 = (t.value, c) := by
      simp [_getSigningToken, ht, h1]
    rw [e1]
    simp [_getSigningToken, ht, h2]
  · intro now1 now2 hst h12
    rw [fresh now1 hst]
    simp [_signFresh, _getSigningToken, h12]

theorem getSigningToken_cache_spec_app :
    _getSigningToken sign0 c1cached 2000 = ("CACHEDTOK", c1cached) :=
  (getSigningToken_cache_spec sign0 c1cached).1 { value := "CACHEDTOK", timestamp := 1000 }
    2000 rfl (by decide)

/-- Claim C3: `_resetSigningToken` (the handler of the expired-credential
signal) unconditionally clears the cached token, and the next
`_getSigningToken` call performs a fresh signing operation — its result is
the newly signed value, regardless of the age of the previous token. -/
theorem resetSigningToken_clears (c : ApnsState)
    (sign : Claims → String → String → SignHeader → String) (now : Nat) :
    (_resetSigningToken c)._token = none ∧
    _getSigningToken sign (_resetSigningToken c) now =
      _signFresh sign (_resetSigningToken c) now ∧
    (_getSigningToken sign (_resetSigningToken c) now).1 = (_signFresh sign c now).1 :=
  ⟨rfl, rfl, rfl⟩

theorem resetSigningToken_clears_app :
    (_resetSigningToken c1cached)._token = none :=
  (resetSigningToken_clears c1cached sign0 1001).1

/-- Claim C8: with a non-zero timeout supplied, a header wait on a stream
whose response headers do not arrive within the window settles as the
timeout failure, while a response arriving strictly within the window
resolves normally, unaffected by the timeout. -/
theorem responseHeaders_timeout_window (numOf : Headers → Nat) (t : Nat)
    (ht : t ≠ 0) :
    (_responseHeadersOutcome numOf (some t) .silent = .timedOut) ∧
    (∀ ta h, t ≤ ta →
      _responseHeadersOutcome numOf (some t) (.respondsAt ta h) = .timedOut) ∧
    (∀ ta h, ta < t →
      _responseHeadersOutcome numOf (some t) (.respondsAt ta h) =
        .resolvedH h (numOf h)) := by
  refine ⟨?_, ?_, ?_⟩
  · simp [_responseHeadersOutcome, ht]
  · intro ta h hta
    simp [_responseHeadersOutcome, ht, hta]
  · intro ta h hta
    simp [_responseHeadersOutcome, ht, Nat.not_le.mpr hta]

theorem responseHeaders_timeout_window_app :
    _responseHeadersOutcome (fun _ => 0) (some 5) .silent = .timedOut :=
  (responseHeaders_timeout_window (fun _ => 0) 5 (by decide)).1

/-- Claim C10: a supplied timeout of 0 is treated as absent by the
`if (timeout)` guard: no timer is armed, the outcome is the same as with no
timeout at all, and the wait can never settle as a timeout failure. -/
theorem responseHeaders_zero_timeout_unarmed (numOf : Headers → Nat)
    (fate : StreamFate) :
    _responseHeadersOutcome numOf (some 0) fate =
      _responseHeadersOutcome numOf none fate ∧
    _responseHeadersOutcome numOf (some 0) fate ≠ HeaderSettle.timedOut := by
  cases fate <;> simp [_responseHeadersOutcome]

theorem responseHeaders_zero_timeout_unarmed_app :
    _responseHeadersOutcome (fun _ => 0) (some 0) .silent =
        _responseHeadersOutcome (fun _ => 0) none .silent ∧
      _responseHeadersOutcome (fun _ => 0) (some 0) .silent ≠ HeaderSettle.timedOut :=
  responseHeaders_zero_timeout_unarmed (fun _ => 0) .silent

/-- Claim C7: body chunks are concatenated in arrival order and decoded;
empty text resolves the body as absent (`none`), non-empty text resolves to
its parse result — but when the parse of a non-empty text fails, the throw
escapes the `end` listener as an uncaught exception: the body promise is
neither resolved nor rejected, so the failure never reaches the caller of
`request`. -/
theorem responseJson_parse_failure_uncaught :
    (∀ (J : Type) (decode : List Nat → String) (parse : String → Except String J)
        (chunks : List (List Nat)),
      decode chunks.flatten = "" →
      _responseJsonOutcome J decode parse (.endsWith chunks) = .resolved none) ∧
    (∀ (J : Type) (decode : List Nat → String) (parse : String → Except String J)
        (chunks : List (List Nat)) (v : J),
      decode chunks.flatten ≠ "" → parse (decode chunks.flatten) = .ok v →
      _responseJsonOutcome J decode parse (.endsWith chunks) = .resolved (some v)) ∧
    (∀ (J : Type) (decode : List Nat → String) (parse : String → Except String J)
        (chunks : List (List Nat)) (e : String),
      decode chunks.flatten ≠ "" → parse (decode chunks.flatten) = .error e →
      _responseJsonOutcome J decode parse (.endsWith chunks) = .uncaughtThrow e ∧
      ∀ e2, _responseJsonOutcome J decode parse (.endsWith chunks) ≠ .rejected e2) := by
  refine ⟨?_, ?_, ?_⟩
  · intro J decode parse chunks h
    simp [_responseJsonOutcome, _convertBufferToJson, h]
  · intro J decode parse chunks v h hp
    simp [_responseJsonOutcome, _convertBufferToJson, Except.map, h, hp]
  · intro J decode parse chunks e h hp
    constructor
    · simp [_responseJsonOutcome, _convertBufferToJson, Except.map, h, hp]
    · intro e2
      simp [_responseJsonOutcome, _convertBufferToJson, Except.map, h, hp]

theorem responseJson_parse_failure_uncaught_app :
    _responseJsonOutcome String decode0 parse0 (BodyFate.endsWith [[123]]) =
      BodySettle.uncaughtThrow "SyntaxError: Unexpected token" :=
  (responseJson_parse_failure_uncaught.2.2 String decode0 parse0 [[123]]
    "SyntaxError: Unexpected token" (by decide) rfl).1

theorem sendMany_len {ρ : Type} (sign : Claims → String → String → SignHeader → String)
    (net : RequestCall → Except String ρ) (now : Nat) :
    ∀ (ns : List Notification) (c : ApnsState),
      (sendMany sign net c now ns).1.length = ns.length
  | [], _ => rfl
  | n :: ns, c => by
    simp [sendMany, sendMany_len sign net now ns]

theorem sendMany_getElem {ρ : Type} (sign : Claims → String → String → SignHeader → String)
    (net : RequestCall → Except String ρ) (now : Nat) :
    ∀ (ns : List Notification) (c : ApnsState) (i : Nat) (n : Notification),
      ns[i]? = some n →
      (sendMany sign net c now ns).1[i]? =
        some (_pushCaught sign net (sendState sign net c now (ns.take i)) now n).1
  | [], _, i, n => by intro h; simp at h
  | m :: ns, c, 0, n => by
    intro h
    simp at h
    subst h
    simp [sendMany, sendState]
  | m :: ns, c, i + 1, n => by
    intro h
    simp at h
    simpa [sendMany, sendState] using
      sendMany_getElem sign net now ns (_pushCaught sign net c now m).2.1 i n h

theorem sendMany_append_eq {ρ : Type} (sign : Claims → String → String → SignHeader → String)
    (net : RequestCall → Except String ρ) (now : Nat) (l2 : List Notification) :
    ∀ (l1 : List Notification) (c : ApnsState),
      (sendMany sign net c now (l1 ++ l2)).1 =
        (sendMany sign net c now l1).1 ++
          (sendMany sign net (sendState sign net c now l1) now l2).1
  | [], c => by simp [sendMany, sendState]
  | m :: l1, c => by
    simp [sendMany, sendState,
      sendMany_append_eq sign net now l2 l1 (_pushCaught sign net c now m).2.1]

/-- Claim C4: `sendMany` yields one outcome per input notification, in input
order (element `i` is the caught outcome of pushing notification `i` from
the state reached after the previous pushes); outcome lists compose over
list concatenation; and a notification failing validation leaves the client
state untouched and issues nothing, so it cannot abort or alter the other
elements. -/
theorem sendMany_outcomes_spec {ρ : Type}
    (sign : Claims → String → String → SignHeader → String)
    (net : RequestCall → Except String ρ) (c : ApnsState) (now : Nat)
    (ns : List Notification) :
    ((sendMany sign net c now ns).1.length = ns.length) ∧
    (∀ (i : Nat) (n : Notification), ns[i]? = some n →
      (sendMany sign net c now ns).1[i]? =
        some (_pushCaught sign net (sendState sign net c now (ns.take i)) now n).1) ∧
    (∀ l2 : List Notification,
      (sendMany sign net c now (ns ++ l2)).1 =
        (sendMany sign net c now ns).1 ++
          (sendMany sign net (sendState sign net c now ns) now l2).1) ∧
    (∀ n : Notification, n.deviceToken = "" →
      _pushCaught sign net c now n =
        (PushOutcome.err "Device token is required", c, ([] : List RequestCall))) := by
  refine ⟨sendMany_len sign net now ns c,
    fun i n h => sendMany_getElem sign net now ns c i n h,
    fun l2 => sendMany_append_eq sign net now l2 ns c,
    fun n h => ?_⟩
  simp [_pushCaught, _push, _getPath, h]

theorem sendMany_outcomes_spec_app :
    (sendMany sign0 net0 c0 3 [nEmpty, nOk]).1.length = [nEmpty, nOk].length :=
  (sendMany_outcomes_spec sign0 net0 c0 3 [nEmpty, nOk]).1

theorem lookupH_mapSet_self (k : String) (v : Option String) :
    ∀ hs : Headers, hs.any (fun p => p.1 == k) = true →
      lookupH (hs.map (fun p => if p.1 == k then (k, v) else p)) k = some v := by
  intro hs
  induction hs with
  | nil => intro h; simp at h
  | cons p hs ih =>
    intro h
    by_cases hp : p.1 == k
    · simp [lookupH, List.find?, hp]
    · have heq : (p.1 == k) = false := by simpa using hp
      simp only [List.any_cons, heq, Bool.false_or] at h
      simpa [lookupH, List.find?, heq] using ih h

theorem lookupH_append_self (k : String) (v : Option String) :
    ∀ hs : Headers, hs.any (fun p => p.1 == k) = false →
      lookupH (hs ++ [(k, v)]) k = some v := by
  intro hs
  induction hs with
  | nil => simp [lookupH, List.find?]
  | cons p hs ih =>
    intro h
    simp only [List.any_cons, Bool.or_eq_false_iff] at h
    simp only [List.cons_append, lookupH, List.find?, h.1, cond_false] at ih ⊢
    exact ih h.2

theorem lookupH_setKey_self (hs : Headers) (k : String) (v : Option String) :
    lookupH (setKey hs k v) k = some v := by
  unfold setKey
  by_cases hany : hs.any (fun p => p.1 == k)
  · rw [if_pos hany]; exact lookupH_mapSet_self k v hs hany
  · rw [if_neg hany]
    exact lookupH_append_self k v hs (Bool.not_eq_true _ ▸ eq_false_of_ne_true hany)

theorem lookupH_mapSet_other (k k' : String) (v : Option String) (hne : k' ≠ k) :
    ∀ hs : Headers,
      lookupH (hs.map (fun p => if p.1 == k then (k, v) else p)) k' = lookupH hs k' := by
  intro hs
  induction hs with
  | nil => rfl
  | cons p hs ih =>
    by_cases hp : p.1 == k
    · have hp1 : p.1 = k := eq_of_beq hp
      have hk' : (k == k') = false := beq_eq_false_iff_ne.mpr (fun hh => hne hh.symm)
      have hpk' : (p.1 == k') = false := by rw [hp1]; exact hk'
      simp only [List.map_cons, hp, if_true, ite_true, lookupH, List.find?, hk', hpk',
        cond_false] at ih ⊢
      exact ih
    · by_cases hp' : p.1 == k'
      · simp [lookupH, List.find?, hp, hp']
      · have heq : (p.1 == k) = false := by simpa using hp
        have heq' : (p.1 == k') = false := by simpa using hp'
        simpa [lookupH, List.find?, heq, heq'] using ih

theorem lookupH_append_other (k k' : String) (v : Option String) (hne : k' ≠ k) :
    ∀ hs : Headers, lookupH (hs ++ [(k, v)]) k' = lookupH hs k' := by
  intro hs
  induction hs with
  | nil =>
    have hk' : (k == k') = false := beq_eq_false_iff_ne.mpr (fun hh => hne hh.symm)
    simp [lookupH, List.find?, hk']
  | cons p hs ih =>
    by_cases hp' : p.1 == k'
    · simp [lookupH, List.find?, hp']
    · simp only [List.cons_append, lookupH, List.find?, hp', cond_false] at ih ⊢
      exact ih

theorem lookupH_setKey_other (hs : Headers) (k k' : String) (v : Option String)
    (hne : k' ≠ k) : lookupH (setKey hs k v) k' = lookupH hs k' := by
  unfold setKey
  by_cases hany : hs.any (fun p => p.1 == k)
  · rw [if_pos hany]; exact lookupH_mapSet_other k k' v hne hs
  · rw [if_neg hany]; exact lookupH_append_other k k' v hne hs

/-- Claim C6 (amended): the headers written to the request stream are the
caller-supplied headers merged with the pseudo-headers for method and path,
but the wrapper's `:method` and `:path` values take precedence even where
the caller explicitly set them; every other caller-supplied key is passed
through unchanged. -/
theorem requestHeaders_wrapper_precedence (options : IRequestOptions) (path : String) :
    lookupH (requestHeaders options path) ":method" = some (some options.method) ∧
    lookupH (requestHeaders options path) ":path" = some (some path) ∧
    ∀ k, k ≠ ":method" → k ≠ ":path" →
      lookupH (requestHeaders options path) k = lookupH (options.headers.getD []) k := by
  unfold requestHeaders
  refine ⟨?_, lookupH_setKey_self _ _ _, ?_⟩
  · rw [lookupH_setKey_other _ _ _ _ (by decide : (":method" : String) ≠ ":path"),
      lookupH_setKey_self]
  · intro k h1 h2
    rw [lookupH_setKey_other _ _ _ _ h2, lookupH_setKey_other _ _ _ _ h1]

/-- Claim C6 counterexample: a caller explicitly supplying the `:method`
pseudo-header does NOT take precedence — the wrapper's value overwrites it in
the written header set. -/
theorem requestHeaders_caller_method_overridden :
    lookupH (requestHeaders opts0 "/3/device/abc") ":method" = some (some "POST") ∧
    lookupH (opts0.headers.getD []) ":method" = some (some "PUT") ∧
    (some (some "POST") : Option (Option String)) ≠ some (some "PUT") :=
  ⟨rfl, rfl, by decide⟩

theorem requestHeaders_wrapper_precedence_app :
    lookupH (requestHeaders opts1 "/3/device/abc") "apns-topic" =
      lookupH (opts1.headers.getD []) "apns-topic" :=
  (requestHeaders_wrapper_precedence opts1 "/3/device/abc").2.2 "apns-topic"
    (by decide) (by decide)

/-- Claim C5 (amended): for every notification with a non-empty device
token, the built header set always contains `apns-push-type` and
`apns-priority` (priority stringified, defaulting to "0" when absent), and
contains `apns-expiration` iff the expiration option was set to a truthy
value (any `Date`, or a number other than 0), and `apns-collapse-id` iff the
collapseId option was set to a non-empty string. -/
theorem buildHeaders_optional_truthiness
    (sign : Claims → String → String → SignHeader → String)
    (c : ApnsState) (now : Nat) (n : Notification) (h : n.deviceToken ≠ "") :
    ∃ l : Headers, (_buildHeaders sign c now n).1 = Except.ok l ∧
      hasKey l "apns-push-type" = true ∧
      lookupH l "apns-push-type" = some (some n.pushType) ∧
      hasKey l "apns-priority" = true ∧
      lookupH l "apns-priority" =
        some (some ((n.priority.map (fun pr => toString pr)).getD "0")) ∧
      hasKey l "apns-expiration" = expirationTruthy n ∧
      hasKey l "apns-collapse-id" = collapseIdTruthy n := by
  have hp : _getPath n.deviceToken =
      Except.ok (posixJoin ["/" ++ toString API_VERSION, "device", n.deviceToken]) := by
    simp [_getPath, h]
  simp only [_buildHeaders, hp]
  rcases he : n.options.bind (fun o => o.expiration) with _ | e <;>
    rcases hs : n.options.bind (fun o => o.collapseId) with _ | s
  · exact ⟨_, rfl, rfl, rfl, rfl, rfl,
      by simp only [expirationTruthy, he]; rfl,
      by simp only [collapseIdTruthy, hs]; rfl⟩
  · by_cases hse : s == ""
    · simp only [hse, if_true, ite_true]
      exact ⟨_, rfl, rfl, rfl, rfl, rfl,
        by simp only [expirationTruthy, he]; rfl,
        by simp only [collapseIdTruthy, hs, bne, hse]; rfl⟩
    · have hse' : (s == "") = false := by simpa using hse
      simp only [hse', Bool.false_eq_true, if_false, ite_false]
      exact ⟨_, rfl, rfl, rfl, rfl, rfl,
        by simp only [expirationTruthy, he]; rfl,
        by simp only [collapseIdTruthy, hs, bne, hse']; rfl⟩
  · by_cases hte : expTruthy e
    · simp only [hte, if_true, ite_true]
      exact ⟨_, rfl, rfl, rfl, rfl, rfl,
        by simp only [expirationTruthy, he, hte]; rfl,
        by simp only [collapseIdTruthy, hs]; rfl⟩
    · have hte' : expTruthy e = false := by simpa using hte
      simp only [hte', Bool.false_eq_true, if_false, ite_false]
      exact ⟨_, rfl, rfl, rfl, rfl, rfl,
        by simp only [expirationTruthy, he, hte']; rfl,
        by simp only [collapseIdTruthy, hs]; rfl⟩
  · by_cases hte : expTruthy e <;> by_cases hse : s == ""
    · simp only [hte, hse, if_true, ite_true]
      exact ⟨_, rfl, rfl, rfl, rfl, rfl,
        by simp only [expirationTruthy, he, hte]; rfl,
        by simp only [collapseIdTruthy, hs, bne, hse]; rfl⟩
    · have hse' : (s == "") = false := by simpa using hse
      simp only [hte, hse', if_true, ite_true, Bool.false_eq_true, if_false, ite_false]
      exact ⟨_, rfl, rfl, rfl, rfl, rfl,
        by simp only [expirationTruthy, he, hte]; rfl,
        by simp only [collapseIdTruthy, hs, bne, hse']; rfl⟩
    · have hte' : expTruthy e = false := by simpa using hte
      simp only [hte', hse, if_true, ite_true, Bool.false_eq_true, if_false, ite_false]
      exact ⟨_, rfl, rfl, rfl, rfl, rfl,
        by simp only [expirationTruthy, he, hte']; rfl,
        by simp only [collapseIdTruthy, hs, bne, hse]; rfl⟩
    · have hte' : expTruthy e = false := by simpa using hte
      have hse' : (s == "") = false := by simpa using hse
      simp only [hte', hse', Bool.false_eq_true, if_false, ite_false]
      exact ⟨_, rfl, rfl, rfl, rfl, rfl,
        by simp only [expirationTruthy, he, hte']; rfl,
        by simp only [collapseIdTruthy, hs, bne, hse']; rfl⟩

/-- Claim C5 counterexample: `nExpZero` has its expiration option set, yet
the built header set contains no `apns-expiration` key — the code tests JS
truthiness of the option value, not presence. -/
theorem buildHeaders_expiration_zero_cex :
    (nExpZero.options.bind (fun o => o.expiration)).isSome = true ∧
    Except.map (fun l => hasKey l "apns-expiration") (_buildHeaders sign0 c0 0 nExpZero).1 =
      Except.ok false :=
  ⟨rfl, rfl⟩

theorem buildHeaders_optional_truthiness_app :
    ∃ l : Headers, (_buildHeaders sign0 c0 0 nFull).1 = Except.ok l ∧
      hasKey l "apns-push-type" = true ∧
      lookupH l "apns-push-type" = some (some nFull.pushType) ∧
      hasKey l "apns-priority" = true ∧
      lookupH l "apns-priority" =
        some (some ((nFull.priority.map (fun pr => toString pr)).getD "0")) ∧
      hasKey l "apns-expiration" = expirationTruthy nFull ∧
      hasKey l "apns-collapse-id" = collapseIdTruthy nFull :=
  buildHeaders_optional_truthiness sign0 c0 0 nFull (by decide)

theorem strData_append (s t : String) : (s ++ t).data = s.data ++ t.data := rfl

theorem splitSlash_seg (seg : List Char) (rest : List Char) (h : '/' ∉ seg) :
    splitSlash (seg ++ '/' :: rest) = seg :: splitSlash rest := by
  induction seg with
  | nil => simp [splitSlash]
  | cons c cs ih =>
    have hc : c ≠ '/' := fun hcc => h (by simp [hcc])
    have hcs : '/' ∉ cs := fun hm => h (List.mem_cons_of_mem _ hm)
    simp [splitSlash, hc, ih hcs]

theorem splitSlash_noslash (l : List Char) (h : '/' ∉ l) : splitSlash l = [l] := by
  induction l with
  | nil => rfl
  | cons c cs ih =>
    have hc : c ≠ '/' := fun hcc => h (by simp [hcc])
    have hcs : '/' ∉ cs := fun hm => h (List.mem_cons_of_mem _ hm)
    simp [splitSlash, hc, ih hcs]

theorem posixNormalize_seg (d : List Char) (hd0 : d ≠ []) (hs : '/' ∉ d)
    (hd2 : d ≠ ['.']) (hd3 : d ≠ ['.', '.']) :
    posixNormalize ("/3/device/".data ++ d) = "/3/device/".data ++ d := by
  have hLne : "/3/device/".data ++ d ≠ [] := by simp
  have hhead : ("/3/device/".data ++ d).head? = some '/' := rfl
  have hlast : ("/3/device/".data ++ d).getLast? = d.getLast? :=
    List.getLast?_append_of_ne_nil _ hd0
  have hlastd : d.getLast? = some (d.getLast hd0) :=
    List.getLast?_eq_getLast_of_ne_nil hd0
  have hlne : d.getLast hd0 ≠ '/' := fun hh => hs (hh ▸ List.getLast_mem hd0)
  have htr : (("/3/device/".data ++ d).getLast? == some '/') = false := by
    rw [hlast, hlastd]
    exact beq_eq_false_iff_ne.mpr (by simpa using hlne)
  have hsplit : splitSlash ("/3/device/".data ++ d) =
      [[], ['3'], ['d', 'e', 'v', 'i', 'c', 'e'], d] := by
    have e1 : "/3/device/".data ++ d =
        '/' :: (['3'] ++ '/' :: (['d', 'e', 'v', 'i', 'c', 'e'] ++ '/' :: d)) := rfl
    rw [e1]
    rw [show splitSlash
        ('/' :: (['3'] ++ '/' :: (['d', 'e', 'v', 'i', 'c', 'e'] ++ '/' :: d))) =
        [] :: splitSlash (['3'] ++ '/' :: (['d', 'e', 'v', 'i', 'c', 'e'] ++ '/' :: d))
      from by simp [splitSlash]]
    rw [splitSlash_seg _ _ (by decide), splitSlash_seg _ _ (by decide),
      splitSlash_noslash _ hs]
  have c1 : ¬(d = [] ∨ d = ['.']) := by
    rintro (hh | hh)
    · exact hd0 hh
    · exact hd2 hh
  have hnorm : normSegs false [] [[], ['3'], ['d', 'e', 'v', 'i', 'c', 'e'], d] =
      [['3'], ['d', 'e', 'v', 'i', 'c', 'e'], d] := by
    rw [show normSegs false [] [[], ['3'], ['d', 'e', 'v', 'i', 'c', 'e'], d] =
        normSegs false [['d', 'e', 'v', 'i', 'c', 'e'], ['3']] [d] from rfl]
    rw [show normSegs false [['d', 'e', 'v', 'i', 'c', 'e'], ['3']] [d] =
        (if d = [] ∨ d = ['.'] then
          normSegs false [['d', 'e', 'v', 'i', 'c', 'e'], ['3']] []
        else if d = ['.', '.'] then
          normSegs false [['3']] []
        else
          normSegs false (d :: [['d', 'e', 'v', 'i', 'c', 'e'], ['3']]) []) from rfl]
    rw [if_neg c1, if_neg hd3]
    rfl
  have hjs : joinSegs [['3'], ['d', 'e', 'v', 'i', 'c', 'e'], d] =
      ['3', '/', 'd', 'e', 'v', 'i', 'c', 'e', '/'] ++ d := rfl
  have hce : (['3', '/', 'd', 'e', 'v', 'i', 'c', 'e', '/'] ++ d).isEmpty = false := rfl
  unfold posixNormalize
  rw [if_neg hLne]
  simp only [hhead, htr, hsplit]
  simp only [show ((some '/' == some '/') : Bool) = true from rfl, Bool.not_true]
  simp only [hnorm, hjs, hce]
  rfl

/-- Claim C9 (amended): for every non-empty device token that is a single
normal path component (contains no `/` and is neither `.` nor `..`), the
request path is exactly `/3/device/` followed by the token.  Tokens
containing separator or dot components are rewritten by the `path.join`
normalization. -/
theorem getPath_single_segment (dt : String) (h0 : dt ≠ "")
    (h1 : '/' ∉ dt.data) (h2 : dt ≠ ".") (h3 : dt ≠ "..") :
    _getPath dt = Except.ok ("/3/device/" ++ dt) := by
  obtain ⟨d⟩ := dt
  have hd0 : d ≠ [] := fun hh => h0 (by rw [hh])
  have hd2 : d ≠ ['.'] := fun hh => h2 (by rw [hh])
  have hd3 : d ≠ ['.', '.'] := fun hh => h3 (by rw [hh])
  unfold _getPath
  rw [if_neg h0]
  have t1 : (("/" ++ toString API_VERSION : String) != "") = true := rfl
  have t2 : (("device" : String) != "") = true := rfl
  have t3 : ((String.mk d) != "") = true := bne_iff_ne.mpr (fun hh => h0 hh)
  have hfil : List.filter (fun s => s != "")
        ["/" ++ toString API_VERSION, "device", String.mk d] =
      ["/" ++ toString API_VERSION, "device", String.mk d] := by
    simp [t1, t2, t3]
  unfold posixJoin
  rw [hfil]
  show Except.ok (String.mk (posixNormalize ("/3/device/".data ++ d))) =
    Except.ok ("/3/device/" ++ String.mk d)
  rw [posixNormalize_seg d hd0 h1 hd2 hd3]
  rfl

/-- Claim C9 counterexample: the device token `..` is non-empty, but the
built path is `/3` — `path.join` resolves the dot-dot component — and not
`/3/device/..` as the claim requires. -/
theorem getPath_dotdot_cex :
    _getPath ".." = Except.ok "/3" ∧ ("/3" : String) ≠ "/3/device/" ++ ".." :=
  ⟨rfl, by decide⟩

theorem getPath_single_segment_app :
    _getPath "abc" = Except.ok ("/3/device/" ++ "abc") :=
  getPath_single_segment "abc" (by decide) (by decide) (by decide) (by decide)

